import Mathlib

/-!
Verification of `.github/scripts/remind-backport.js`, a scheduled reminder
script that scans open pull requests carrying a configured label, computes the
label age from issue events, and posts a reminder comment unless a recent
reminder already exists.  Each definition below is a shallow embedding of a
named fragment of the script; JavaScript numbers holding millisecond
timestamps are modelled as `Int`, and `parseInt` results that may be `NaN`
are modelled as `Option Int` with `none` standing for `NaN`.
-/

namespace RemindBackport

/-- Models JavaScript `haystack.includes(needle)` on the underlying character
lists: true when `needle` occurs as a contiguous substring of `hay`. -/
def listContains (needle : List Char) : List Char → Bool
  | [] => needle.isEmpty
  | c :: cs => needle.isPrefixOf (c :: cs) || listContains needle cs

/-- String form of `listContains`: JavaScript `s.includes(sub)`. -/
def strIncludes (s sub : String) : Bool :=
  listContains sub.toList s.toList

/-- Value of a decimal digit string, most significant digit first. -/
def digitsToNat (ds : List Char) : Nat :=
  ds.foldl (fun n c => n * 10 + (c.toNat - 48)) 0

/-- Models JavaScript `parseInt(s, 10)` (line 12-13 of the script): skip
leading whitespace, read an optional sign, then the longest digit prefix;
`none` models the `NaN` result when no digit is found. -/
def jsParseInt (s : String) : Option Int :=
  let cs := s.toList.dropWhile (fun c => c.isWhitespace)
  let signed : Int × List Char :=
    match cs with
    | '-' :: rest => (-1, rest)
    | '+' :: rest => (1, rest)
    | _ => (1, cs)
  let digits := (signed.2).takeWhile (fun c => c.isDigit)
  if digits.isEmpty then none
  else some (signed.1 * (digitsToNat digits : Nat))

/-- Models JavaScript `x < y` where `y` may be `NaN` (modelled `none`):
any comparison against `NaN` is false. -/
def jsLt (a : Int) (b : Option Int) : Bool :=
  match b with
  | some v => decide (a < v)
  | none => false

/-- Models JavaScript `envVar || dflt` for string environment variables:
the default is used when the variable is absent or the empty string. -/
def envString (v : Option String) (dflt : String) : String :=
  match v with
  | some s => if s == "" then dflt else s
  | none => dflt

/-- Models line 35 of the script:
`const daysBetween = (a, b) => Math.floor((a - b) / (1000 * 60 * 5))`.
`Math.floor` of a real quotient of integers is floor division, `Int.fdiv`. -/
def daysBetween (a b : Int) : Int :=
  (a - b).fdiv (1000 * 60 * 5)

/-- Models JavaScript string interpolation of a number that may be `NaN`. -/
def jsNumStr (v : Option Int) : String :=
  match v with
  | some n => toString n
  | none => "NaN"

/-! ### Startup configuration (lines 4-22) -/

/-- Models JavaScript truthiness test `!x` for an optional string:
absent and empty are falsy. -/
def jsFalsy (v : Option String) : Bool :=
  match v with
  | some s => s == ""
  | none => true

/-- Splits a character list at every `/`, like JavaScript `split("/")`. -/
def splitSlashAux : List Char → List Char → List String
  | [], acc => [String.mk acc.reverse]
  | c :: cs, acc =>
    if c = '/' then String.mk acc.reverse :: splitSlashAux cs []
    else splitSlashAux cs (c :: acc)

/-- Models JavaScript `s.split("/")`: the `/`-separated fields of `s`, with
empty fields kept (the empty string yields one empty field). -/
def splitSlash (s : String) : List String :=
  splitSlashAux s.toList []

/-- Models lines 4-22: the process exits with status 1 when `GITHUB_TOKEN` is
falsy, or when `GITHUB_REPOSITORY` does not split into a truthy owner and
repo around the first two `/`-separated fields. -/
def startupAborts (token githubRepository : Option String) : Bool :=
  if jsFalsy token then true
  else
    let parts := splitSlash (envString githubRepository "")
    parts.getD 0 "" == "" || parts.getD 1 "" == ""

/-- Immutable run configuration, lines 10-14 of the script. `afterDays` and
`everyDays` are `parseInt` results and may be `NaN` (`none`). -/
structure Config where
  labelName : String
  targetBranch : String
  afterDays : Option Int
  everyDays : Option Int
  marker : String
deriving Repr, DecidableEq

/-- Models lines 10-14: construction of the configuration from the
environment variables `LABEL_NAME`, `TARGET_BRANCH`, `REMIND_AFTER_DAYS`,
`REMIND_EVERY_DAYS`, `MARKER`. -/
def configOf (labelName targetBranch afterStr everyStr marker : Option String) :
    Config where
  labelName := envString labelName "backport-pending"
  targetBranch := envString targetBranch "master"
  afterDays := jsParseInt (envString afterStr "7")
  everyDays := jsParseInt (envString everyStr "7")
  marker := envString marker "[backport-pending-reminder]"

/-! ### HTTP responses and the pagination client (lines 24-62) -/

/-- Parsed JSON body of a response, as far as the script inspects it:
`Array.isArray(data)` distinguishes an array of items from anything else. -/
inductive JBody (α : Type) where
  | arr (items : List α)
  | notArr
deriving Repr, DecidableEq

/-- Shallow model of a `fetch` response: status code, the two rate-limit
headers the script reads, the parsed JSON body, and the raw text used in
error messages. -/
structure RawResp (α : Type) where
  status : Nat
  xRatelimitRemaining : Option String
  xRatelimitReset : Option String
  body : JBody α
  text : String
deriving Repr, DecidableEq

/-- Models `res.ok`: status in the inclusive range 200-299. -/
def RawResp.ok {α : Type} (r : RawResp α) : Bool :=
  decide (200 ≤ r.status) && decide (r.status < 300)

/-- Models line 44 of the script: a rate-limit signal is a 403 status whose
`x-ratelimit-remaining` header is the string `"0"`. -/
def isRateLimited {α : Type} (r : RawResp α) : Bool :=
  r.status == 403 && r.xRatelimitRemaining == some "0"

/-- Models JavaScript `Number(s)` restricted to the shapes the script meets
on the `x-ratelimit-reset` header: the empty string is 0, a digit string is
its value, anything else is `NaN` (`none`). -/
def jsNumberOf (s : String) : Option Int :=
  let cs := s.toList
  if cs.isEmpty then some 0
  else if cs.all (fun c => c.isDigit) then some (digitsToNat cs : Nat)
  else none

/-- Models lines 45-46 of the script: the sleep duration on a rate-limit
response, from the `x-ratelimit-reset` header (seconds), the current time
`now` (milliseconds), and a fixed 1000 ms safety margin:
`Math.max(0, reset * 1000 - now) + 1000`. -/
def waitMs (now : Int) (resetHeader : Option String) : Option Int :=
  (jsNumberOf (envString resetHeader "0")).map
    (fun resetSec => max 0 (resetSec * 1000 - now) + 1000)

/-- Outcome of a `paginate` call: the concatenated items, or the thrown
fetch-failure error (path, status, response text), or `noResponse` when the
supplied response script is exhausted with a request still pending. -/
inductive PagOut (α : Type) where
  | ok (items : List α)
  | fail (path : String) (status : Nat) (text : String)
  | noResponse
deriving Repr, DecidableEq

/-- Models the loop of `paginate` (lines 40-61).  The network is modelled by
the list `script` of responses consumed one per request, so a retried page
consumes the next response.  Returns the page numbers requested, in order,
together with the outcome.  Per response: a rate-limit signal sleeps and
retries the same page; any other non-ok response throws; a non-array or
empty body breaks; a full page of 100 items is appended and the page counter
advances; a short page is appended and the loop breaks. -/
def paginateAux {α : Type} (path : String) :
    List (RawResp α) → Nat → List α → List Nat × PagOut α
  | [], _page, _acc => ([], .noResponse)
  | r :: rest, page, acc =>
    if isRateLimited r then
      let out := paginateAux path rest page acc
      (page :: out.1, out.2)
    else if r.ok then
      match r.body with
      | .notArr => ([page], .ok acc)
      | .arr data =>
        if data.length = 0 then ([page], .ok acc)
        else
          let results := acc ++ data
          if data.length < 100 then ([page], .ok results)
          else
            let out := paginateAux path rest (page + 1) results
            (page :: out.1, out.2)
    else ([page], .fail path r.status r.text)

/-- Models a full `paginate(path, ...)` call: page counter starts at 1 with
an empty accumulator (line 40). -/
def paginateRun {α : Type} (path : String) (script : List (RawResp α)) :
    List Nat × PagOut α :=
  paginateAux path script 1 []

/-- Splits a list into the successive pages a 100-per-page server returns
for it, with explicit fuel to keep the recursion structural.  A final exact
multiple of 100 is followed by the empty page the server would serve next. -/
def chunksFuel {α : Type} : Nat → List α → List (List α)
  | 0, l => [l]
  | n + 1, l =>
    if l.length < 100 then [l] else l.take 100 :: chunksFuel n (l.drop 100)

/-- Pages of up to 100 items a well-behaved list endpoint serves for the
item list `l`. -/
def chunks {α : Type} (l : List α) : List (List α) :=
  chunksFuel l.length l

/-- Successful 200 response carrying one page of items. -/
def okPage {α : Type} (items : List α) : RawResp α :=
  { status := 200, xRatelimitRemaining := none, xRatelimitReset := none,
    body := .arr items, text := "" }

/-- Response script of a well-behaved list endpoint serving `l` in pages of
up to 100 items. -/
def pageScript {α : Type} (l : List α) : List (RawResp α) :=
  (chunks l).map okPage

/-! ### Data model of the run loop (lines 92-170) -/

/-- A GitHub account as far as the script inspects it: `login` and `type`
fields, each possibly absent. -/
structure User where
  login : Option String
  type : Option String
deriving Repr, DecidableEq

/-- A candidate returned by the label query: number, whether the
`pull_request` field is present, and the author. -/
structure Issue where
  number : Nat
  pullRequest : Bool
  user : Option User
deriving Repr, DecidableEq

/-- An issue timeline event: `event` kind, `label?.name`, and the
`created_at` timestamp in milliseconds. -/
structure IssueEvent where
  event : String
  label : Option String
  createdAt : Int
deriving Repr, DecidableEq

/-- An issue comment: author, `body`, and `created_at` in milliseconds. -/
structure Comment where
  user : Option User
  body : Option String
  createdAt : Int
deriving Repr, DecidableEq

/-- Pull-request detail: `base?.ref`, `base.repo.owner.login`, and the
requested reviewers (logins) and teams (slugs). -/
structure PullDetail where
  baseRef : Option String
  baseRepoOwner : String
  requestedReviewers : Option (List String)
  requestedTeams : Option (List String)
deriving Repr, DecidableEq

/-- Insert `x` into a list already sorted by `key` in descending order,
before the first element whose key is not larger: a stable descending
insertion, embedding the JavaScript stable
`.sort((a, b) => new Date(b.created_at) - new Date(a.created_at))`. -/
def insertDesc {α : Type} (key : α → Int) (x : α) : List α → List α
  | [] => [x]
  | y :: ys => if key y ≤ key x then x :: y :: ys else y :: insertDesc key x ys

/-- Stable insertion sort by `key` in descending order, embedding the
JavaScript `.sort` comparator used at lines 115 and 136. -/
def sortDesc {α : Type} (key : α → Int) : List α → List α
  | [] => []
  | x :: xs => insertDesc key x (sortDesc key xs)

/-- Models the filter of lines 113-114: events whose `event` is `"labeled"`
and whose `label?.name` equals the configured label. -/
def labeledEventsOf (cfg : Config) (events : List IssueEvent) : List IssueEvent :=
  events.filter (fun e => e.event == "labeled" && e.label == some cfg.labelName)

/-- Models lines 113-122: sort the matching labeled events by `created_at`
descending and take the first, the latest (re)application of the label. -/
def latestLabeledEvent (cfg : Config) (events : List IssueEvent) :
    Option IssueEvent :=
  (sortDesc IssueEvent.createdAt (labeledEventsOf cfg events)).head?

/-- Models the comment filter of lines 132-135: the author is an automated
identity (`user?.type === "Bot"`, or `user?.login?.includes("github-actions")`)
and the body contains the configured marker string. -/
def isBotMarkerComment (cfg : Config) (c : Comment) : Bool :=
  ((c.user.bind User.type == some "Bot") ||
    (match c.user.bind User.login with
     | some l => strIncludes l "github-actions"
     | none => false)) &&
  (match c.body with
   | some b => strIncludes b cfg.marker
   | none => false)

/-- Prior automated reminder comments bearing the marker, lines 131-135. -/
def botMarkerComments (cfg : Config) (comments : List Comment) : List Comment :=
  comments.filter (isBotMarkerComment cfg)

/-- Models lines 131-139: most recent prior reminder comment, by sorting the
filtered comments by `created_at` descending and taking the first. -/
def latestReminder (cfg : Config) (comments : List Comment) : Option Comment :=
  (sortDesc Comment.createdAt (botMarkerComments cfg comments)).head?

/-- Models line 148: `issue.user?.login ? "@" + login : ""`, where an empty
login is falsy and also yields the empty string. -/
def authorMention (issue : Issue) : String :=
  match issue.user.bind User.login with
  | some l => if l == "" then "" else "@" ++ l
  | none => ""

/-- Models line 149: mentions of the requested individual reviewers. -/
def userMentions (pr : PullDetail) : List String :=
  (pr.requestedReviewers.getD []).map (fun l => "@" ++ l)

/-- Models line 150: mentions of the requested teams, qualified by the base
repository owner. -/
def teamMentions (pr : PullDetail) : List String :=
  (pr.requestedTeams.getD []).map (fun t => "@" ++ pr.baseRepoOwner ++ "/" ++ t)

/-- The combined mention sources of line 151, before the truthiness filter:
`[author, ...requestedUsers, ...requestedTeams]`. -/
def mentionSources (issue : Issue) (pr : PullDetail) : List String :=
  authorMention issue :: (userMentions pr ++ teamMentions pr)

/-- Models line 151 up to the join: `[...].filter(Boolean)`, dropping the
falsy (empty) entries. -/
def mentionsList (issue : Issue) (pr : PullDetail) : List String :=
  (mentionSources issue pr).filter (fun s => !(s == ""))

/-- Models line 151: the space-joined mention string. -/
def mentionsStr (issue : Issue) (pr : PullDetail) : String :=
  String.intercalate " " (mentionsList issue pr)

/-- Models the template literal of lines 153-161 building the reminder
comment body. -/
def reminderBody (cfg : Config) (issue : Issue) (pr : PullDetail)
    (ageDays : Int) : String :=
  cfg.marker ++ "\n" ++ mentionsStr issue pr ++
    "\n\nThis pull request targets `" ++ cfg.targetBranch ++
    "` and has the `" ++ cfg.labelName ++ "` label for **" ++
    toString ageDays ++ " days**.\nPlease review next steps for backporting" ++
    " (or remove the label if no longer needed).\n\n- Threshold: `" ++
    jsNumStr cfg.afterDays ++ "d`\n- Re-reminder interval: `" ++
    jsNumStr cfg.everyDays ++ "d`\n"

/-- Errors thrown by the three fetch helpers: `paginate` (line 53),
`getPull` (line 71), `createComment` (line 88), each carrying the request
identification, the status code and the response text. -/
inductive FetchErr where
  | getFailed (path : String) (status : Nat) (text : String)
  | getPullFailed (number : Nat) (status : Nat) (text : String)
  | postFailed (number : Nat) (status : Nat) (text : String)
deriving Repr, DecidableEq

/-- Models `getPull` (lines 69-73) applied to the response the network
returns: any non-ok response throws immediately — there is no rate-limit
branch here — and a success returns the parsed body. -/
def getPull {α : Type} (number : Nat) (res : RawResp α) :
    Except FetchErr (JBody α) :=
  if res.ok then .ok res.body
  else .error (.getPullFailed number res.status res.text)

/-- Models `createComment` (lines 83-90) applied to the response the network
returns: any non-ok response throws immediately — there is no rate-limit
branch here — and a success returns the parsed body. -/
def createComment {α : Type} (number : Nat) (res : RawResp α) :
    Except FetchErr (JBody α) :=
  if res.ok then .ok res.body
  else .error (.postFailed number res.status res.text)

/-- The remote API as the run loop sees it: each fetch either yields parsed
data or throws a fetch-failure error. -/
structure Env where
  getPullOf : Nat → Except FetchErr PullDetail
  listEventsOf : Nat → Except FetchErr (List IssueEvent)
  listCommentsOf : Nat → Except FetchErr (List Comment)
  postCommentOf : Nat → String → Except FetchErr Unit

/-- Outcome of one loop iteration of `run` for one candidate. -/
inductive Decision where
  | notPR
  | wrongBase (baseRef : Option String)
  | noLabeledEvent
  | tooYoung (ageDays : Int)
  | recentlyReminded (sinceDays : Int)
  | posted (body : String)
deriving Repr, DecidableEq

/-- Models lines 147-164: compose the reminder body and post it. -/
def postReminder (cfg : Config) (env : Env) (issue : Issue) (pr : PullDetail)
    (ageDays : Int) : Except FetchErr Decision :=
  let body := reminderBody cfg issue pr ageDays
  match env.postCommentOf issue.number body with
  | .error e => .error e
  | .ok _ => .ok (.posted body)

/-- Models one iteration of the `run` loop, lines 100-166: skip non-PRs,
fetch the pull detail and skip on a base-branch mismatch, skip when no
matching labeled event exists, skip when the label age in whole units is
below the threshold, skip when a prior automated marker comment is more
recent than the reminder interval, and otherwise post the reminder. -/
def processIssue (cfg : Config) (now : Int) (env : Env) (issue : Issue) :
    Except FetchErr Decision :=
  if issue.pullRequest = false then .ok .notPR
  else
    match env.getPullOf issue.number with
    | .error e => .error e
    | .ok pr =>
      if pr.baseRef ≠ some cfg.targetBranch then .ok (.wrongBase pr.baseRef)
      else
        match env.listEventsOf issue.number with
        | .error e => .error e
        | .ok events =>
          match latestLabeledEvent cfg events with
          | none => .ok .noLabeledEvent
          | some ev =>
            let ageDays := daysBetween now ev.createdAt
            if jsLt ageDays cfg.afterDays then .ok (.tooYoung ageDays)
            else
              match env.listCommentsOf issue.number with
              | .error e => .error e
              | .ok comments =>
                match latestReminder cfg comments with
                | some c =>
                  let since := daysBetween now c.createdAt
                  if jsLt since cfg.everyDays then
                    .ok (.recentlyReminded since)
                  else postReminder cfg env issue pr ageDays
                | none => postReminder cfg env issue pr ageDays

/-- Models the candidate loop of `run` (lines 99-167): candidates are
processed strictly in order, and the first uncaught error aborts the loop
before any later candidate is touched. -/
def runLoop (cfg : Config) (now : Int) (env : Env) :
    List Issue → Except FetchErr (List (Nat × Decision))
  | [] => .ok []
  | i :: rest =>
    match processIssue cfg now env i with
    | .error e => .error e
    | .ok d =>
      match runLoop cfg now env rest with
      | .error e => .error e
      | .ok ds => .ok ((i.number, d) :: ds)

/-- Models lines 172-175: `run().catch(err => process.exit(1))` — exit code
0 on normal completion, 1 when any error escapes the loop. -/
def runExitCode (r : Except FetchErr (List (Nat × Decision))) : Nat :=
  match r with
  | .ok _ => 0
  | .error _ => 1

/-- Shape invariant of the pages a 100-per-page endpoint serves: every page
but the last holds exactly 100 items, and the last fewer than 100. -/
inductive GoodChunks {α : Type} : List (List α) → Prop
  | last (c : List α) (h : c.length < 100) : GoodChunks [c]
  | pages (c : List α) (h : c.length = 100) (cs : List (List α))
      (hcs : GoodChunks cs) : GoodChunks (c :: cs)

/-! ### Concrete fixtures used to evaluate the model on closed inputs -/

/-- A rate-limited 403 response with zero remaining quota. -/
def rlProbe : RawResp Nat :=
  { status := 403, xRatelimitRemaining := some "0",
    xRatelimitReset := some "5", body := JBody.notArr, text := "rate limited" }

/-- A 500 failure response. -/
def errProbe : RawResp Nat :=
  { status := 500, xRatelimitRemaining := none,
    xRatelimitReset := none, body := JBody.notArr, text := "boom" }

/-- A 200 response whose JSON body is not an array. -/
def objProbe : RawResp Nat :=
  { status := 200, xRatelimitRemaining := none,
    xRatelimitReset := none, body := JBody.notArr, text := "obj" }

/-- A small concrete configuration: label `bp`, branch `master`, threshold
and interval 7 units, marker `[r]`. -/
def cfgA : Config :=
  { labelName := "bp", targetBranch := "master",
    afterDays := some 7, everyDays := some 7, marker := "[r]" }

/-- A pull-request candidate authored by `alice`. -/
def issueA : Issue :=
  { number := 42, pullRequest := true,
    user := some { login := some "alice", type := some "User" } }

/-- A non-pull-request candidate. -/
def issueB : Issue :=
  { number := 7, pullRequest := false, user := none }

/-- Pull detail based on `master` with no requested reviewers. -/
def prA : PullDetail :=
  { baseRef := some "master", baseRepoOwner := "acme",
    requestedReviewers := some [], requestedTeams := some [] }

/-- Pull detail based on `dev`. -/
def prB : PullDetail :=
  { baseRef := some "dev", baseRepoOwner := "acme",
    requestedReviewers := none, requestedTeams := none }

/-- A labeled event for label `bp` at time 0. -/
def evA : IssueEvent := { event := "labeled", label := some "bp", createdAt := 0 }

/-- A prior bot reminder comment bearing the marker `[r]`, at time 600000
(two 5-minute units after time 0). -/
def rcA : Comment :=
  { user := some { login := some "github-actions[bot]", type := some "Bot" },
    body := some "[r] ping", createdAt := 600000 }

/-- Environment serving `prA`, the single labeled event `evA`, no comments,
and accepting posts. -/
def envA : Env :=
  { getPullOf := fun _ => Except.ok prA
    listEventsOf := fun _ => Except.ok [evA]
    listCommentsOf := fun _ => Except.ok []
    postCommentOf := fun _ _ => Except.ok () }

/-- Environment like `envA` but whose comment list holds the prior reminder
`rcA`. -/
def envB : Env :=
  { getPullOf := fun _ => Except.ok prA
    listEventsOf := fun _ => Except.ok [evA]
    listCommentsOf := fun _ => Except.ok [rcA]
    postCommentOf := fun _ _ => Except.ok () }

/-- Environment serving `prB` (base `dev`) and nothing else of interest. -/
def envC : Env :=
  { getPullOf := fun _ => Except.ok prB
    listEventsOf := fun _ => Except.ok []
    listCommentsOf := fun _ => Except.ok []
    postCommentOf := fun _ _ => Except.ok () }

/-- Environment serving `prA` but an empty event list. -/
def envD : Env :=
  { getPullOf := fun _ => Except.ok prA
    listEventsOf := fun _ => Except.ok []
    listCommentsOf := fun _ => Except.ok []
    postCommentOf := fun _ _ => Except.ok () }

/-- Environment whose event fetch fails with a 502. -/
def envErr : Env :=
  { getPullOf := fun _ => Except.ok prA
    listEventsOf := fun _ => Except.error (FetchErr.getFailed "/events" 502 "bad")
    listCommentsOf := fun _ => Except.ok []
    postCommentOf := fun _ _ => Except.ok () }

/-- An issue with a duplicated mention source: the author `alice` is also a
requested reviewer. -/
def prDup : PullDetail :=
  { baseRef := some "master", baseRepoOwner := "acme",
    requestedReviewers := some ["alice"], requestedTeams := some [] }

/-! ### Lemmas about the stable descending sort -/

theorem mem_insertDesc {α : Type} (key : α → Int) (x a : α) (l : List α) :
    a ∈ insertDesc key x l ↔ a = x ∨ a ∈ l := by
  induction l with
  | nil => simp [insertDesc]
  | cons y ys ih =>
    simp only [insertDesc]
    split
    · simp [List.mem_cons]
    · simp only [List.mem_cons, ih]
      tauto

theorem pairwise_insertDesc {α : Type} (key : α → Int) (x : α) (l : List α)
    (h : l.Pairwise (fun a b => key b ≤ key a)) :
    (insertDesc key x l).Pairwise (fun a b => key b ≤ key a) := by
  induction l with
  | nil => simp [insertDesc]
  | cons y ys ih =>
    rw [List.pairwise_cons] at h
    obtain ⟨hy, hys⟩ := h
    simp only [insertDesc]
    split
    · rename_i hxy
      refine List.Pairwise.cons ?_ (List.Pairwise.cons hy hys)
      intro b hb
      rcases List.mem_cons.mp hb with rfl | hb
      · exact hxy
      · exact le_trans (hy b hb) hxy
    · rename_i hxy
      push_neg at hxy
      refine List.Pairwise.cons ?_ (ih hys)
      intro b hb
      rcases (mem_insertDesc key x b ys).mp hb with rfl | hb
      · exact le_of_lt hxy
      · exact hy b hb

theorem mem_sortDesc {α : Type} (key : α → Int) (a : α) (l : List α) :
    a ∈ sortDesc key l ↔ a ∈ l := by
  induction l with
  | nil => simp [sortDesc]
  | cons x xs ih => simp [sortDesc, mem_insertDesc, ih]

theorem pairwise_sortDesc {α : Type} (key : α → Int) (l : List α) :
    (sortDesc key l).Pairwise (fun a b => key b ≤ key a) := by
  induction l with
  | nil => simp [sortDesc]
  | cons x xs ih => exact pairwise_insertDesc key x _ ih

theorem head_sortDesc_max {α : Type} (key : α → Int) (l : List α) (e : α)
    (h : (sortDesc key l).head? = some e) :
    e ∈ l ∧ ∀ x ∈ l, key x ≤ key e := by
  obtain ⟨rest, hrest⟩ : ∃ rest, sortDesc key l = e :: rest := by
    cases hs : sortDesc key l with
    | nil => rw [hs] at h; simp at h
    | cons a as =>
      rw [hs] at h
      simp only [List.head?_cons, Option.some.injEq] at h
      exact ⟨as, by rw [h]⟩
  constructor
  · exact (mem_sortDesc key e l).mp (by rw [hrest]; simp)
  · intro x hx
    have hx' : x ∈ sortDesc key l := (mem_sortDesc key x l).mpr hx
    rw [hrest] at hx'
    rcases List.mem_cons.mp hx' with rfl | hx'
    · exact le_refl _
    · have hp := pairwise_sortDesc key l
      rw [hrest, List.pairwise_cons] at hp
      exact hp.1 x hx'

theorem head_sortDesc_of_bounds {α : Type} (key : α → Int) (l : List α)
    (L : Int) (hmem : ∃ e ∈ l, key e = L) (hub : ∀ e ∈ l, key e ≤ L) :
    ∃ e, (sortDesc key l).head? = some e ∧ key e = L := by
  obtain ⟨e0, he0, hke0⟩ := hmem
  cases hs : sortDesc key l with
  | nil =>
    exfalso
    have : e0 ∈ sortDesc key l := (mem_sortDesc key e0 l).mpr he0
    rw [hs] at this
    simp at this
  | cons a as =>
    have hha : (sortDesc key l).head? = some a := by rw [hs]; rfl
    have hmax := head_sortDesc_max key l a hha
    refine ⟨a, rfl, le_antisymm (hub a hmax.1) ?_⟩
    calc L = key e0 := hke0.symm
    _ ≤ key a := hmax.2 e0 he0

/-! ### Lemmas about pagination over a well-behaved endpoint -/

theorem chunksFuel_congr {α : Type} :
    ∀ (n m : Nat) (l : List α), l.length ≤ n → l.length ≤ m →
      chunksFuel n l = chunksFuel m l := by
  intro n
  induction n with
  | zero =>
    intro m l hn _
    have : l = [] := List.length_eq_zero.mp (Nat.le_zero.mp hn)
    subst this
    cases m with
    | zero => rfl
    | succ m' => simp [chunksFuel]
  | succ n ih =>
    intro m l hn hm
    cases m with
    | zero =>
      have : l = [] := List.length_eq_zero.mp (Nat.le_zero.mp hm)
      subst this
      simp [chunksFuel]
    | succ m' =>
      show (if l.length < 100 then [l] else l.take 100 :: chunksFuel n (l.drop 100))
        = (if l.length < 100 then [l] else l.take 100 :: chunksFuel m' (l.drop 100))
      split
      · rfl
      · rename_i hge
        have hd : (l.drop 100).length = l.length - 100 := List.length_drop 100 l
        congr 1
        apply ih
        · omega
        · omega

theorem chunksFuel_pos {α : Type} (n : Nat) (l : List α) (h : 0 < n) :
    chunksFuel n l =
      if l.length < 100 then [l]
      else l.take 100 :: chunksFuel (n - 1) (l.drop 100) := by
  cases n with
  | zero => omega
  | succ m => simp [chunksFuel]

theorem chunks_eq {α : Type} (l : List α) :
    chunks l = if l.length < 100 then [l] else l.take 100 :: chunks (l.drop 100) := by
  rcases Nat.eq_zero_or_pos l.length with h0 | hpos
  · have : l = [] := List.length_eq_zero.mp h0
    subst this
    simp [chunks, chunksFuel]
  · unfold chunks
    rw [chunksFuel_pos l.length l hpos]
    by_cases hlt : l.length < 100
    · rw [if_pos hlt, if_pos hlt]
    · rw [if_neg hlt, if_neg hlt]
      congr 1
      apply chunksFuel_congr
      · rw [List.length_drop]
        omega
      · rw [List.length_drop]

theorem goodChunks_chunks_of_le {α : Type} :
    ∀ (n : Nat) (l : List α), l.length ≤ n →
      GoodChunks (chunks l) ∧ (chunks l).flatten = l := by
  intro n
  induction n with
  | zero =>
    intro l hn
    have : l = [] := List.length_eq_zero.mp (Nat.le_zero.mp hn)
    subst this
    rw [chunks_eq]
    exact ⟨GoodChunks.last [] (by simp), by simp⟩
  | succ n ih =>
    intro l hn
    rw [chunks_eq]
    split
    · rename_i hlt
      exact ⟨GoodChunks.last l hlt, by simp⟩
    · rename_i hge
      have hd : (l.drop 100).length = l.length - 100 := List.length_drop 100 l
      have htk : (l.take 100).length = 100 := by
        rw [List.length_take]
        omega
      obtain ⟨h1, h2⟩ := ih (l.drop 100) (by omega)
      refine ⟨GoodChunks.pages _ htk _ h1, ?_⟩
      simp only [List.flatten_cons, h2]
      exact List.take_append_drop 100 l

theorem goodChunks_chunks {α : Type} (l : List α) :
    GoodChunks (chunks l) ∧ (chunks l).flatten = l :=
  goodChunks_chunks_of_le l.length l (le_refl _)

theorem isRateLimited_okPage {α : Type} (items : List α) :
    isRateLimited (okPage items) = false := by
  simp [isRateLimited, okPage]

theorem ok_okPage {α : Type} (items : List α) : (okPage items).ok = true := by
  simp [RawResp.ok, okPage]

/-- Over a response script serving well-shaped pages, `paginateAux` requests
consecutive pages once each and returns the accumulator followed by the
concatenation of all pages. -/
theorem paginateAux_goodChunks {α : Type} (path : String) :
    ∀ (cs : List (List α)), GoodChunks cs → ∀ (page : Nat) (acc : List α),
      paginateAux path (cs.map okPage) page acc =
        (List.range' page cs.length, PagOut.ok (acc ++ cs.flatten)) := by
  intro cs h
  induction h with
  | last c hlen =>
    intro page acc
    by_cases hz : c.length = 0
    · have : c = [] := List.length_eq_zero.mp hz
      subst this
      simp [paginateAux, okPage, isRateLimited, RawResp.ok, List.range'_succ]
    · simp [paginateAux, okPage, isRateLimited, RawResp.ok, hz, hlen,
        List.range'_succ]
  | pages c hlen cs' hcs ih =>
    intro page acc
    have hz : ¬(c.length = 0) := by omega
    have hlt : ¬(c.length < 100) := by omega
    simp only [List.map_cons, paginateAux]
    simp only [okPage, isRateLimited, RawResp.ok]
    simp only [show ((200 : Nat) == 403) = false from rfl, Bool.false_and,
      Bool.false_eq_true, if_false]
    simp only [show (decide ((200 : Nat) ≤ 200) && decide ((200 : Nat) < 300)) = true
      from rfl, if_true]
    rw [if_neg hz, if_neg hlt, ih (page + 1) (acc ++ c)]
    simp [List.range'_succ, List.append_assoc]

/-- Full `paginate(path, ...)` over a well-behaved endpoint serving the item
list `l`: every page from 1 to the page count is requested once, in order,
and the returned sequence is exactly `l`. -/
theorem paginateRun_pageScript {α : Type} (path : String) (l : List α) :
    paginateRun path (pageScript l) =
      (List.range' 1 (chunks l).length, PagOut.ok l) := by
  obtain ⟨hgood, hflat⟩ := goodChunks_chunks l
  unfold paginateRun pageScript
  rw [paginateAux_goodChunks path (chunks l) hgood 1 []]
  rw [List.nil_append, hflat]

/-! ### Shared facts about rate-limited and failing responses -/

theorem paginateAux_rateLimited {α : Type} (path : String) (r : RawResp α)
    (rest : List (RawResp α)) (page : Nat) (acc : List α)
    (h : isRateLimited r = true) :
    paginateAux path (r :: rest) page acc =
      (page :: (paginateAux path rest page acc).1,
       (paginateAux path rest page acc).2) := by
  simp [paginateAux, h]

theorem status_of_rateLimited {α : Type} (r : RawResp α)
    (h : isRateLimited r = true) : r.status = 403 := by
  rw [isRateLimited, Bool.and_eq_true] at h
  have h1 := h.1
  rw [beq_iff_eq] at h1
  exact h1

theorem not_ok_of_rateLimited {α : Type} (r : RawResp α)
    (h : isRateLimited r = true) : r.ok = false := by
  rw [RawResp.ok, status_of_rateLimited r h]
  rfl

theorem status_ne_403_of_ok {α : Type} (r : RawResp α) (h : r.ok = true) :
    isRateLimited r = false := by
  rw [RawResp.ok, Bool.and_eq_true, decide_eq_true_eq, decide_eq_true_eq] at h
  rw [isRateLimited]
  have : (r.status == 403) = false := by
    rw [beq_eq_false_iff_ne]
    omega
  rw [this, Bool.false_and]

/-! ### Claim theorems: pagination (C4, C5, C10) -/

/-- C4: `paginate` requests pages of up to 100 items starting at page 1,
appending each page's items in order until a short or empty page, and
returns the concatenation; in particular a 250-item source is served as
pages of 100, 100 and 50 and yields exactly the 250 items in the original
order. -/
theorem paginate_appends_pages_in_order {α : Type} (path : String) (l : List α) :
    paginateRun path (pageScript l) =
        (List.range' 1 (chunks l).length, PagOut.ok l) ∧
      (l.length = 250 →
        (chunks l).map List.length = [100, 100, 50] ∧
        paginateRun path (pageScript l) = ([1, 2, 3], PagOut.ok l)) := by
  refine ⟨paginateRun_pageScript path l, ?_⟩
  intro h250
  have hd1 : (l.drop 100).length = 150 := by rw [List.length_drop]; omega
  have hd2 : ((l.drop 100).drop 100).length = 50 := by
    rw [List.length_drop, hd1]
  have hc : chunks l = [l.take 100, (l.drop 100).take 100, (l.drop 100).drop 100] := by
    rw [chunks_eq l, if_neg (by omega)]
    rw [chunks_eq (l.drop 100), if_neg (by omega)]
    rw [chunks_eq ((l.drop 100).drop 100), if_pos (by omega)]
  have hmap : (chunks l).map List.length = [100, 100, 50] := by
    rw [hc]
    simp only [List.map_cons, List.map_nil, List.length_take, hd2]
    rw [h250, hd1]
    norm_num
  refine ⟨hmap, ?_⟩
  rw [paginateRun_pageScript path l, hc]
  rfl

/-- C5: a rate-limit signal (403 with zero remaining quota) raises no error
and does not advance the page counter — `paginate` retries the identical
page, so no page is skipped and no items are duplicated — after sleeping
`max(0, reset·1000 − now) + 1000` ms, which carries it to at least the
reset timestamp plus the fixed 1000 ms safety margin. -/
theorem rate_limit_wait_and_retry {α : Type} (path : String) (r : RawResp α)
    (rest : List (RawResp α)) (page : Nat) (acc : List α)
    (h : isRateLimited r = true) :
    (paginateAux path (r :: rest) page acc =
      (page :: (paginateAux path rest page acc).1,
       (paginateAux path rest page acc).2)) ∧
    (∀ (now v : Int) (s : String), r.xRatelimitReset = some s → s ≠ "" →
      jsNumberOf s = some v →
      waitMs now r.xRatelimitReset = some (max 0 (v * 1000 - now) + 1000) ∧
      now + (max 0 (v * 1000 - now) + 1000) ≥ v * 1000 + 1000) := by
  refine ⟨paginateAux_rateLimited path r rest page acc h, ?_⟩
  intro now v s hreset hne hnum
  have he : envString r.xRatelimitReset "0" = s := by
    rw [hreset]
    simp [envString, hne]
  constructor
  · rw [waitMs, he, hnum]
    rfl
  · have hmax : v * 1000 - now ≤ max 0 (v * 1000 - now) :=
      le_max_right 0 (v * 1000 - now)
    omega

/-- C10: a successful (2xx) response whose JSON body is not an array ends
pagination silently at that point: the items accumulated from earlier pages
are returned and no error is raised. -/
theorem paginate_stops_on_non_array {α : Type} (path : String) (r : RawResp α)
    (rest : List (RawResp α)) (page : Nat) (acc : List α)
    (hok : r.ok = true) (hbody : r.body = JBody.notArr) :
    paginateAux path (r :: rest) page acc = ([page], PagOut.ok acc) := by
  have hrl := status_ne_403_of_ok r hok
  simp [paginateAux, hrl, hok, hbody]

/-- Witness for C4: the concrete 250-item source `List.range 250` is served
as pages of 100, 100 and 50, and `paginate` returns all 250 items in order
after requesting pages 1, 2, 3. -/
theorem paginate_appends_pages_in_order_witness :
    (chunks (List.range 250)).map List.length = [100, 100, 50] ∧
    paginateRun "/x" (pageScript (List.range 250)) =
      ([1, 2, 3], PagOut.ok (List.range 250)) :=
  (paginate_appends_pages_in_order "/x" (List.range 250)).2 (by simp)

/-- Witness for C5 at a concrete rate-limited response with reset second 5,
evaluated at `now = 0`: the same page 1 is retried and the sleep is 6000 ms,
reaching past the reset time 5000 ms plus the 1000 ms margin. -/
theorem rate_limit_wait_and_retry_witness :
    (paginateAux "/x" [rlProbe, okPage [9]] 1 [] =
      (1 :: (paginateAux "/x" [okPage [9]] 1 []).1,
       (paginateAux "/x" [okPage [9]] 1 []).2)) ∧
    waitMs 0 rlProbe.xRatelimitReset = some (max 0 ((5 : Int) * 1000 - 0) + 1000) ∧
    (0 : Int) + (max 0 ((5 : Int) * 1000 - 0) + 1000) ≥ (5 : Int) * 1000 + 1000 := by
  have h := rate_limit_wait_and_retry "/x" rlProbe [okPage [9]] 1 [] (by decide)
  have h2 := h.2 0 5 "5" (by decide) (by decide) (by decide)
  exact ⟨h.1, h2.1, h2.2⟩

/-- Witness for C10: a 200 non-array response at page 2 returns the items
accumulated so far without an error. -/
theorem paginate_stops_on_non_array_witness :
    objProbe.ok = true ∧
    paginateAux "/x" [objProbe, okPage [3]] 2 [7] = ([2], PagOut.ok [7]) :=
  ⟨by decide,
   paginate_stops_on_non_array "/x" objProbe [okPage [3]] 2 [7] (by decide) (by decide)⟩

/-! ### Claim theorems: retry scope and fatal failures (C6, C8) -/

/-- C6 counterexample: a concrete rate-limited 403 response to the
single-object pull-request fetch, and likewise to the comment post, is
surfaced as a fetch-failure error — neither operation backs off and
retries, contradicting the claim that no such operation surfaces a
transient rate-limit as an error. -/
theorem rate_limit_error_from_getPull_and_post :
    isRateLimited rlProbe = true ∧
    getPull 42 rlProbe =
      Except.error (FetchErr.getPullFailed 42 403 "rate limited") ∧
    createComment 42 rlProbe =
      Except.error (FetchErr.postFailed 42 403 "rate limited") :=
  ⟨by decide, rfl, rfl⟩

/-- C6 amended: only the paginated list fetches back off and retry on a
rate-limit signal; the single-object pull-request fetch and the comment
post surface a rate-limited 403 immediately as a fetch-failure error. -/
theorem only_paginate_retries_on_rate_limit :
    (∀ (α : Type) (path : String) (r : RawResp α)
       (rest : List (RawResp α)) (page : Nat) (acc : List α),
      isRateLimited r = true →
      paginateAux path (r :: rest) page acc =
        (page :: (paginateAux path rest page acc).1,
         (paginateAux path rest page acc).2)) ∧
    (∀ (α : Type) (n : Nat) (r : RawResp α), isRateLimited r = true →
      getPull n r = Except.error (FetchErr.getPullFailed n r.status r.text) ∧
      createComment n r = Except.error (FetchErr.postFailed n r.status r.text)) := by
  constructor
  · intro α path r rest page acc h
    exact paginateAux_rateLimited path r rest page acc h
  · intro α n r h
    have hok := not_ok_of_rateLimited r h
    constructor
    · rw [getPull, if_neg (by simp [hok])]
    · rw [createComment, if_neg (by simp [hok])]

/-- Witness for the amended C6 at the concrete rate-limited response. -/
theorem only_paginate_retries_on_rate_limit_witness :
    paginateAux "/y" [rlProbe] 3 [5] =
      (3 :: (paginateAux "/y" ([] : List (RawResp Nat)) 3 [5]).1,
       (paginateAux "/y" ([] : List (RawResp Nat)) 3 [5]).2) ∧
    getPull 7 rlProbe =
      Except.error (FetchErr.getPullFailed 7 403 "rate limited") := by
  have h := only_paginate_retries_on_rate_limit
  exact ⟨h.1 Nat "/y" rlProbe [] 3 [5] (by decide),
         (h.2 Nat 7 rlProbe (by decide)).1⟩

/-- C8: any non-success, non-rate-limited response raises a fetch-failure
error carrying the request path (or item number), the status code and the
response text; the candidate loop does not catch it, so it aborts all
remaining candidates and the run terminates with exit status 1. -/
theorem fetch_failure_aborts_run :
    (∀ (α : Type) (path : String) (r : RawResp α)
       (rest : List (RawResp α)) (page : Nat) (acc : List α),
      isRateLimited r = false → r.ok = false →
      paginateAux path (r :: rest) page acc =
        ([page], PagOut.fail path r.status r.text)) ∧
    (∀ (α : Type) (n : Nat) (r : RawResp α), r.ok = false →
      getPull n r = Except.error (FetchErr.getPullFailed n r.status r.text)) ∧
    (∀ (α : Type) (n : Nat) (r : RawResp α), r.ok = false →
      createComment n r = Except.error (FetchErr.postFailed n r.status r.text)) ∧
    (∀ (cfg : Config) (now : Int) (env : Env) (pre : List Issue) (bad : Issue)
       (rest : List Issue) (e : FetchErr),
      (∀ i ∈ pre, ∃ d, processIssue cfg now env i = Except.ok d) →
      processIssue cfg now env bad = Except.error e →
      runLoop cfg now env (pre ++ bad :: rest) = Except.error e ∧
      runExitCode (runLoop cfg now env (pre ++ bad :: rest)) = 1) := by
  refine ⟨?_, ?_, ?_, ?_⟩
  · intro α path r rest page acc h1 h2
    simp [paginateAux, h1, h2]
  · intro α n r h
    rw [getPull, if_neg (by simp [h])]
  · intro α n r h
    rw [createComment, if_neg (by simp [h])]
  · intro cfg now env pre bad rest e hpre hbad
    have key : ∀ (p : List Issue),
        (∀ i ∈ p, ∃ d, processIssue cfg now env i = Except.ok d) →
        runLoop cfg now env (p ++ bad :: rest) = Except.error e := by
      intro p
      induction p with
      | nil =>
        intro _
        simp only [List.nil_append, runLoop, hbad]
      | cons i is ih =>
        intro hp
        obtain ⟨d, hd⟩ := hp i (List.mem_cons_self i is)
        have h2 := ih (fun j hj => hp j (List.mem_cons_of_mem i hj))
        have h2' : runLoop cfg now env (is.append (bad :: rest)) =
            Except.error e := h2
        simp only [List.cons_append, runLoop, hd, h2']
    have h1 := key pre hpre
    exact ⟨h1, by rw [h1]; rfl⟩

/-- Witness for C8: a concrete 500 response fails pagination and the pull
fetch with the carried status and text, and a failing event fetch for the
first candidate aborts the loop before the second candidate, exiting 1. -/
theorem fetch_failure_aborts_run_witness :
    paginateAux "/z" [errProbe] 1 [] = ([1], PagOut.fail "/z" 500 "boom") ∧
    getPull 9 errProbe = Except.error (FetchErr.getPullFailed 9 500 "boom") ∧
    runLoop cfgA 100 envErr [issueA, issueB] =
      Except.error (FetchErr.getFailed "/events" 502 "bad") ∧
    runExitCode (runLoop cfgA 100 envErr [issueA, issueB]) = 1 := by
  have h := fetch_failure_aborts_run
  have hbadA : processIssue cfgA 100 envErr issueA =
      Except.error (FetchErr.getFailed "/events" 502 "bad") := rfl
  have hloop := h.2.2.2 cfgA 100 envErr [] issueA [issueB]
    (FetchErr.getFailed "/events" 502 "bad") (by simp) hbadA
  exact ⟨h.1 Nat "/z" errProbe [] 1 [] (by decide) (by decide),
         h.2.1 Nat 9 errProbe (by decide), hloop.1, hloop.2⟩

/-! ### Inversion facts about the per-candidate evaluation -/

theorem processIssue_tooYoung_jsLt (cfg : Config) (now : Int) (env : Env)
    (issue : Issue) (a : Int)
    (h : processIssue cfg now env issue = Except.ok (Decision.tooYoung a)) :
    jsLt a cfg.afterDays = true := by
  simp only [processIssue, postReminder] at h
  repeat' split at h
  all_goals simp_all

theorem processIssue_recentlyReminded_jsLt (cfg : Config) (now : Int)
    (env : Env) (issue : Issue) (s : Int)
    (h : processIssue cfg now env issue =
      Except.ok (Decision.recentlyReminded s)) :
    jsLt s cfg.everyDays = true := by
  simp only [processIssue, postReminder] at h
  repeat' split at h
  all_goals simp_all

/-! ### Claim theorems: policy evaluation (C1, C2, C3, C9) -/

/-- C1: for a pull-request candidate whose base branch equals the target
branch and whose latest matching label-applied event is at time `L`, the
age is the floor of the elapsed time divided by the configured unit
duration (1000·60·5 ms), and the candidate is skipped at the age check
exactly when this age is strictly below the threshold — so an age equal to
the threshold passes the check and is due. -/
theorem age_threshold_inclusive_boundary (cfg : Config) (now : Int)
    (env : Env) (issue : Issue) (pr : PullDetail) (events : List IssueEvent)
    (t L : Int)
    (hthr : cfg.afterDays = some t)
    (hpr : issue.pullRequest = true)
    (hpull : env.getPullOf issue.number = Except.ok pr)
    (hbase : pr.baseRef = some cfg.targetBranch)
    (hevents : env.listEventsOf issue.number = Except.ok events)
    (hmem : ∃ e ∈ labeledEventsOf cfg events, e.createdAt = L)
    (hub : ∀ e ∈ labeledEventsOf cfg events, e.createdAt ≤ L) :
    daysBetween now L = (now - L).fdiv (1000 * 60 * 5) ∧
    (processIssue cfg now env issue =
        Except.ok (Decision.tooYoung (daysBetween now L)) ↔
      daysBetween now L < t) := by
  obtain ⟨ev, hev, hkey⟩ := head_sortDesc_of_bounds IssueEvent.createdAt
    (labeledEventsOf cfg events) L hmem hub
  have hlatest : latestLabeledEvent cfg events = some ev := hev
  refine ⟨rfl, ⟨fun h => ?_, fun hc => ?_⟩⟩
  · have hj := processIssue_tooYoung_jsLt cfg now env issue _ h
    rw [hthr] at hj
    simpa [jsLt] using hj
  · simp [processIssue, hpr, hpull, hbase, hevents, hlatest, hkey, hthr,
      jsLt, hc]

/-- Witness for C1 at a concrete candidate labeled at time 0 with threshold
7 units of 300000 ms: at `now = 2099999` the age is 6, strictly below the
threshold, and the candidate is skipped as too young; at `now = 2100000`
the age is exactly 7 and the age check passes. -/
theorem age_threshold_inclusive_boundary_witness :
    daysBetween 2099999 0 = 6 ∧
    processIssue cfgA 2099999 envA issueA =
      Except.ok (Decision.tooYoung (daysBetween 2099999 0)) ∧
    daysBetween 2100000 0 = 7 ∧
    processIssue cfgA 2100000 envA issueA ≠
      Except.ok (Decision.tooYoung (daysBetween 2100000 0)) := by
  have h1 := age_threshold_inclusive_boundary cfgA 2099999 envA issueA prA
    [evA] 7 0 rfl rfl rfl rfl rfl ⟨evA, by decide, rfl⟩ (by decide)
  have h2 := age_threshold_inclusive_boundary cfgA 2100000 envA issueA prA
    [evA] 7 0 rfl rfl rfl rfl rfl ⟨evA, by decide, rfl⟩ (by decide)
  refine ⟨by decide, h1.2.mpr (by decide), by decide,
    fun hh => absurd (h2.2.mp hh) (by decide)⟩

/-- C2: for a candidate that passes the age check and has at least one
prior comment authored by an automated identity (account kind `Bot` or a
login containing `github-actions`) whose body contains the marker, the most
recent such comment's time `T2` governs: the candidate is skipped exactly
when the whole-unit elapsed time since `T2` is strictly below the reminder
interval — an elapsed time equal to the interval is due. -/
theorem reminder_interval_inclusive_boundary (cfg : Config) (now : Int)
    (env : Env) (issue : Issue) (pr : PullDetail) (events : List IssueEvent)
    (comments : List Comment) (iv L T2 : Int)
    (hiv : cfg.everyDays = some iv)
    (hpr : issue.pullRequest = true)
    (hpull : env.getPullOf issue.number = Except.ok pr)
    (hbase : pr.baseRef = some cfg.targetBranch)
    (hevents : env.listEventsOf issue.number = Except.ok events)
    (hmem : ∃ e ∈ labeledEventsOf cfg events, e.createdAt = L)
    (hub : ∀ e ∈ labeledEventsOf cfg events, e.createdAt ≤ L)
    (hage : jsLt (daysBetween now L) cfg.afterDays = false)
    (hcomments : env.listCommentsOf issue.number = Except.ok comments)
    (hmem2 : ∃ c ∈ botMarkerComments cfg comments, c.createdAt = T2)
    (hub2 : ∀ c ∈ botMarkerComments cfg comments, c.createdAt ≤ T2) :
    processIssue cfg now env issue =
        Except.ok (Decision.recentlyReminded (daysBetween now T2)) ↔
      daysBetween now T2 < iv := by
  obtain ⟨ev, hev, hkey⟩ := head_sortDesc_of_bounds IssueEvent.createdAt
    (labeledEventsOf cfg events) L hmem hub
  have hlatest : latestLabeledEvent cfg events = some ev := hev
  obtain ⟨c, hcv, hkey2⟩ := head_sortDesc_of_bounds Comment.createdAt
    (botMarkerComments cfg comments) T2 hmem2 hub2
  have hrem : latestReminder cfg comments = some c := hcv
  constructor
  · intro h
    have hj := processIssue_recentlyReminded_jsLt cfg now env issue _ h
    rw [hiv] at hj
    simpa [jsLt] using hj
  · intro hc
    have hlt : jsLt (daysBetween now T2) (some iv) = true := by
      simp [jsLt, hc]
    simp [processIssue, hpr, hpull, hbase, hevents, hlatest, hkey, hage,
      hcomments, hrem, hkey2, hiv, hlt]

/-- Witness for C2 at a concrete candidate with a prior marker comment at
time 600000 and interval 7 units of 300000 ms: at `now = 2400000` the
elapsed time is 6 units, strictly below the interval, and the candidate is
skipped; at `now = 2700000` it is exactly 7 units and the candidate is due. -/
theorem reminder_interval_inclusive_boundary_witness :
    daysBetween 2400000 600000 = 6 ∧
    processIssue cfgA 2400000 envB issueA =
      Except.ok (Decision.recentlyReminded (daysBetween 2400000 600000)) ∧
    daysBetween 2700000 600000 = 7 ∧
    processIssue cfgA 2700000 envB issueA ≠
      Except.ok (Decision.recentlyReminded (daysBetween 2700000 600000)) := by
  have h1 := reminder_interval_inclusive_boundary cfgA 2400000 envB issueA
    prA [evA] [rcA] 7 0 600000 rfl rfl rfl rfl rfl ⟨evA, by decide, rfl⟩
    (by decide) (by decide) rfl ⟨rcA, by decide, rfl⟩ (by decide)
  have h2 := reminder_interval_inclusive_boundary cfgA 2700000 envB issueA
    prA [evA] [rcA] 7 0 600000 rfl rfl rfl rfl rfl ⟨evA, by decide, rfl⟩
    (by decide) (by decide) rfl ⟨rcA, by decide, rfl⟩ (by decide)
  exact ⟨by decide, h1.mpr (by decide), by decide,
    fun hh => absurd (h2.mp hh) (by decide)⟩

/-- C3: a candidate that is not a pull request, or whose base branch
differs from the target branch, or that has no matching label-applied
event, short-circuits to the corresponding skip decision for every
environment — in particular irrespective of the post operation's behavior —
and none of these skip decisions is a posted comment. -/
theorem skip_conditions_never_post :
    (∀ (cfg : Config) (now : Int) (env : Env) (issue : Issue),
      issue.pullRequest = false →
      processIssue cfg now env issue = Except.ok Decision.notPR) ∧
    (∀ (cfg : Config) (now : Int) (env : Env) (issue : Issue) (pr : PullDetail),
      issue.pullRequest = true →
      env.getPullOf issue.number = Except.ok pr →
      pr.baseRef ≠ some cfg.targetBranch →
      processIssue cfg now env issue = Except.ok (Decision.wrongBase pr.baseRef)) ∧
    (∀ (cfg : Config) (now : Int) (env : Env) (issue : Issue) (pr : PullDetail)
       (events : List IssueEvent),
      issue.pullRequest = true →
      env.getPullOf issue.number = Except.ok pr →
      pr.baseRef = some cfg.targetBranch →
      env.listEventsOf issue.number = Except.ok events →
      labeledEventsOf cfg events = [] →
      processIssue cfg now env issue = Except.ok Decision.noLabeledEvent) ∧
    (∀ (b : String) (r : Option String),
      Decision.notPR ≠ Decision.posted b ∧
      Decision.wrongBase r ≠ Decision.posted b ∧
      Decision.noLabeledEvent ≠ Decision.posted b) := by
  refine ⟨?_, ?_, ?_, ?_⟩
  · intro cfg now env issue h
    simp [processIssue, h]
  · intro cfg now env issue pr h1 h2 h3
    simp [processIssue, h1, h2, h3]
  · intro cfg now env issue pr events h1 h2 h3 h4 h5
    have hl : latestLabeledEvent cfg events = none := by
      simp [latestLabeledEvent, h5, sortDesc]
    simp [processIssue, h1, h2, h3, h4, hl]
  · intro b r
    exact ⟨by simp, by simp, by simp⟩

/-- Witness for C3: a non-PR candidate, a PR based on `dev` when the target
is `master`, and a PR with no labeled events are each skipped with the
corresponding decision. -/
theorem skip_conditions_never_post_witness :
    processIssue cfgA 0 envA issueB = Except.ok Decision.notPR ∧
    processIssue cfgA 0 envC issueA =
      Except.ok (Decision.wrongBase (some "dev")) ∧
    processIssue cfgA 0 envD issueA = Except.ok Decision.noLabeledEvent := by
  have h := skip_conditions_never_post
  exact ⟨h.1 cfgA 0 envA issueB rfl,
         h.2.1 cfgA 0 envC issueA prB rfl rfl (by decide),
         h.2.2.1 cfgA 0 envD issueA prA [] rfl rfl rfl rfl rfl⟩

/-- C9: an age-threshold environment value with no parsable integer yields
a NaN (`none`) threshold; the startup checks do not inspect it so the
process does not abort, every age comparison against NaN is false, and no
candidate is ever skipped as too young under such a configuration. -/
theorem nan_threshold_never_skips (s : String)
    (hbad : jsParseInt s = none) (hne : s ≠ "") :
    (∀ lab tb ev mk, (configOf lab tb (some s) ev mk).afterDays = none) ∧
    startupAborts (some "token") (some "owner/repo") = false ∧
    (∀ a : Int, jsLt a none = false) ∧
    (∀ (cfg : Config) (now : Int) (env : Env) (issue : Issue) (a : Int),
      cfg.afterDays = none →
      processIssue cfg now env issue ≠ Except.ok (Decision.tooYoung a)) := by
  refine ⟨?_, by decide, fun a => rfl, ?_⟩
  · intro lab tb ev mk
    simp [configOf, envString, hne, hbad]
  · intro cfg now env issue a hnan h
    have hj := processIssue_tooYoung_jsLt cfg now env issue a h
    rw [hnan] at hj
    simp [jsLt] at hj

/-- Witness for C9 at the concrete unparseable value `"x"`. -/
theorem nan_threshold_never_skips_witness :
    jsParseInt "x" = none ∧
    (configOf none none (some "x") none none).afterDays = none ∧
    jsLt 999 none = false := by
  have h := nan_threshold_never_skips "x" (by decide) (by decide)
  exact ⟨by decide, h.1 none none none none, h.2.2.1 999⟩

/-! ### Claim theorems: mention composition (C7) -/

theorem at_mention_ne_empty (l : String) : ("@" ++ l) ≠ "" := by
  intro he
  have h := congrArg String.length he
  rw [String.length_append] at h
  have h1 : ("@" : String).length = 1 := rfl
  have h2 : ("" : String).length = 0 := rfl
  omega

theorem team_mention_ne_empty (o t : String) : ("@" ++ o ++ "/" ++ t) ≠ "" := by
  intro he
  have h := congrArg String.length he
  rw [String.length_append, String.length_append, String.length_append] at h
  have h1 : ("@" : String).length = 1 := rfl
  have h2 : ("/" : String).length = 1 := rfl
  have h3 : ("" : String).length = 0 := rfl
  omega

/-- C7 counterexample: with author `alice` also a requested reviewer, the
combined mention sources contain a duplicate and the composed mention list
retains it — line 151 applies no deduplication. -/
theorem mention_list_keeps_duplicates :
    ¬ (mentionSources issueA prDup).Nodup ∧
    mentionsList issueA prDup = ["@alice", "@alice"] ∧
    ¬ (mentionsList issueA prDup).Nodup := by
  exact ⟨by decide, by decide, by decide⟩

/-- C7 amended: the composed mention list is the combined sources with the
falsy (empty) entries removed and no deduplication — the multiplicity of
every nonempty mention is preserved — and every requested reviewer mention
and team mention appears in it. -/
theorem mention_list_preserves_sources (issue : Issue) (pr : PullDetail) :
    mentionsList issue pr =
      (mentionSources issue pr).filter (fun s => !(s == "")) ∧
    (∀ m : String, m ≠ "" →
      (mentionsList issue pr).count m = (mentionSources issue pr).count m) ∧
    (∀ l ∈ pr.requestedReviewers.getD [], ("@" ++ l) ∈ mentionsList issue pr) ∧
    (∀ t ∈ pr.requestedTeams.getD [],
      ("@" ++ pr.baseRepoOwner ++ "/" ++ t) ∈ mentionsList issue pr) := by
  refine ⟨rfl, ?_, ?_, ?_⟩
  · intro m hm
    have hp : (!(m == "")) = true := by simp [hm]
    exact List.count_filter hp
  · intro l hl
    refine List.mem_filter.mpr ⟨?_, ?_⟩
    · apply List.mem_cons_of_mem
      apply List.mem_append_left
      exact List.mem_map.mpr ⟨l, hl, rfl⟩
    · simp [at_mention_ne_empty l]
  · intro t ht
    refine List.mem_filter.mpr ⟨?_, ?_⟩
    · apply List.mem_cons_of_mem
      apply List.mem_append_right
      exact List.mem_map.mpr ⟨t, ht, rfl⟩
    · simp [team_mention_ne_empty pr.baseRepoOwner t]

/-- Witness for the amended C7 at the duplicated concrete sources. -/
theorem mention_list_preserves_sources_witness :
    (mentionsList issueA prDup).count "@alice" =
      (mentionSources issueA prDup).count "@alice" ∧
    ("@" ++ "alice") ∈ mentionsList issueA prDup := by
  have h := mention_list_preserves_sources issueA prDup
  exact ⟨h.2.1 "@alice" (by decide), h.2.2.1 "alice" (by decide)⟩

end RemindBackport
